import Mathlib

set_option linter.unusedVariables false

/-!
Verification development for the AI code-review service
(`src/api/main.py`, `src/api/auth.py`, `src/api/model.py`).

The Python source is shallowly embedded: pure helpers become Lean
functions over `String`/`List Char`; the webhook handler and the
GitHub/LLM gateways become functions from an explicit external `World`
(the responses the outside services would give) to a result paired with
a trace of outbound-call events.  Python exceptions are modelled with
`Except String`; Python `None` with `Option`.
-/

namespace CodeReview

/-! ## Python string primitives

The Python code uses `str.split`, `str.startswith`, `str.endswith`,
`str.strip`, `str.lower`, `str.replace` and slicing `line[1:]`.  They are
embedded as structurally recursive functions over `List Char` so that
every concrete evaluation reduces in the kernel. -/

/-- Python `s.split('\n')` (single-character separator, keeps empty parts). -/
def splitCharAux (sep : Char) : List Char → List (List Char)
  | [] => [[]]
  | c :: cs =>
    match splitCharAux sep cs with
    | [] => [[]]
    | h :: t => if c = sep then [] :: h :: t else (c :: h) :: t

/-- Python `s.split('\n')`. -/
def pySplitLines (s : String) : List String :=
  (splitCharAux '\n' s.toList).map String.mk

/-- Python `s.startswith(pre)`. -/
def pyStartsWith (s pre : String) : Bool :=
  pre.toList.isPrefixOf s.toList

/-- Python `s.endswith(suf)`. -/
def pyEndsWith (s suf : String) : Bool :=
  suf.toList.isSuffixOf s.toList

/-- Python `s[1:]`. -/
def pyDrop1 (s : String) : String :=
  String.mk (s.toList.drop 1)

/-- Python `s.strip()`. -/
def pyStrip (s : String) : String :=
  String.mk (((s.toList.dropWhile Char.isWhitespace).reverse.dropWhile Char.isWhitespace).reverse)

/-- Python `s.lower()`. -/
def pyLower (s : String) : String :=
  String.mk (s.toList.map Char.toLower)

/-- Fuel-driven core of Python `s.replace(old, new)`; fuel is the length of
the subject so the recursion is structural.  (`old = []` is never used by
the source, which only replaces `"\n"`.) -/
def replaceAux (pat rep : List Char) : Nat → List Char → List Char
  | _, [] => []
  | 0, l => l
  | fuel + 1, c :: cs =>
    if pat ≠ [] && pat.isPrefixOf (c :: cs) then
      rep ++ replaceAux pat rep fuel ((c :: cs).drop pat.length)
    else
      c :: replaceAux pat rep fuel cs

/-- Python `s.replace(old, new)` (all occurrences, left to right). -/
def pyReplace (s old new : String) : String :=
  String.mk (replaceAux old.toList new.toList s.toList.length s.toList)

/-- Digits of a decimal literal to a number (Python `int(...)` on a digit string). -/
def digitsToNat (ds : List Char) : Nat :=
  ds.foldl (fun a c => a * 10 + (c.toNat - 48)) 0

/-! ## model.py : `parse_patch_changes` (DiffParser) -/

/-- The `,?` part of the hunk-header regex. -/
def skipComma : List Char → List Char
  | ',' :: rest => rest
  | l => l

/-- Matching `re.search(r'@@ -(\d+),?\d* \+(\d+),?\d* @@', line)` at one fixed
start position, returning `int(match.group(2))`.  Because the character
classes (digit, comma, space) are disjoint, the greedy match without
backtracking is equivalent to the regex engine's behaviour. -/
def matchHeaderAt : List Char → Option Nat
  | '@' :: '@' :: ' ' :: '-' :: rest =>
    let s1 := List.span Char.isDigit rest
    if s1.1 = [] then none else
    let s2 := List.span Char.isDigit (skipComma s1.2)
    match s2.2 with
    | ' ' :: '+' :: r4 =>
      let s3 := List.span Char.isDigit r4
      if s3.1 = [] then none else
      let s4 := List.span Char.isDigit (skipComma s3.2)
      match s4.2 with
      | ' ' :: '@' :: '@' :: _ => some (digitsToNat s3.1)
      | _ => none
    | _ => none
  | _ => none

/-- Model of `re.search`: scans left-to-right for the first matching start position. -/
def searchHeaderAux : List Char → Option Nat
  | [] => none
  | c :: rest =>
    match matchHeaderAt (c :: rest) with
    | some n => some n
    | none => searchHeaderAux rest

/-- The new-file start parsed from a hunk header line, if the regex matches. -/
def searchHunkHeader (line : String) : Option Nat :=
  searchHeaderAux line.toList

/-- The dict built by `parse_patch_changes`. -/
structure Changes where
  added_lines : List (Nat × String)
  removed_lines : List String
  context_lines : List (Nat × String)
  line_numbers : List Nat
deriving DecidableEq

def emptyChanges : Changes := ⟨[], [], [], []⟩

/-- One iteration of the `for line in lines` loop of `parse_patch_changes`,
acting on the pair (changes built so far, `current_line_num`). -/
def parseStep (st : Changes × Nat) (line : String) : Changes × Nat :=
  if pyStartsWith line "@@" then
    match searchHunkHeader line with
    | some c => (st.1, c)
    | none => st
  else if pyStartsWith line "+" && !pyStartsWith line "+++" then
    (⟨st.1.added_lines ++ [(st.2, pyDrop1 line)], st.1.removed_lines,
      st.1.context_lines, st.1.line_numbers ++ [st.2]⟩, st.2 + 1)
  else if pyStartsWith line "-" then
    (⟨st.1.added_lines, st.1.removed_lines ++ [pyDrop1 line],
      st.1.context_lines, st.1.line_numbers⟩, st.2)
  else if !(line == "") && !pyStartsWith line "\\" then
    (⟨st.1.added_lines, st.1.removed_lines,
      st.1.context_lines ++ [(st.2, if pyStartsWith line " " then pyDrop1 line else line)],
      st.1.line_numbers⟩, st.2 + 1)
  else st

/-- Embedding of `parse_patch_changes(patch)` from `src/api/model.py`. -/
def parse_patch_changes (patch : String) : Changes :=
  ((pySplitLines patch).foldl parseStep (emptyChanges, 0)).1


/-! ## JSON values and `json.loads`

`json.loads` is an external library call; it is embedded as a small
recursive-descent parser over `List Char` with structural fuel.  Numbers
are stored as integers (the fractional/exponent part is consumed but the
value is truncated — no claim depends on float values) and `\uXXXX`
string escapes are not supported (no concrete input uses them). -/

inductive Json where
  | null
  | bool (b : Bool)
  | num (n : Int)
  | str (s : String)
  | arr (xs : List Json)
  | obj (kvs : List (String × Json))

/-- JSON insignificant whitespace. -/
def skipWs (cs : List Char) : List Char :=
  cs.dropWhile (fun c => c = ' ' || c = '\t' || c = '\n' || c = '\r')

/-- The two-character escapes of JSON strings, as (escape letter, decoded
character) pairs; `\b` is backspace and `\f` is form feed. -/
def jsonEscapeTable : List (Char × Char) :=
  [('"', '"'), ('\\', '\\'), ('/', '/'), ('n', '\n'),
   ('t', '\t'), ('r', '\r'), ('b', Char.ofNat 8), ('f', Char.ofNat 12)]

/-- Body of a JSON string after the opening quote: content plus what follows
the closing quote. -/
def parseJString : List Char → Option (List Char × List Char)
  | [] => none
  | '"' :: rest => some ([], rest)
  | '\\' :: e :: rest =>
    match jsonEscapeTable.find? (fun pr => pr.1 == e) with
    | some pr =>
      match parseJString rest with
      | some (content, r) => some (pr.2 :: content, r)
      | none => none
    | none => none
  | c :: rest =>
    match parseJString rest with
    | some (content, r) => some (c :: content, r)
    | none => none

/-- Exponent digits of a JSON number. -/
def parseExpDigits (cs : List Char) : Option (List Char) :=
  let s := List.span Char.isDigit cs
  if s.1 = [] then none else some s.2

/-- Optional sign then exponent digits. -/
def parseExpSign : List Char → Option (List Char)
  | '+' :: r => parseExpDigits r
  | '-' :: r => parseExpDigits r
  | r => parseExpDigits r

/-- Optional exponent part of a JSON number. -/
def parseExp : List Char → Option (List Char)
  | 'e' :: r => parseExpSign r
  | 'E' :: r => parseExpSign r
  | l => some l

/-- Optional fraction part of a JSON number. -/
def parseFrac : List Char → Option (List Char)
  | '.' :: r =>
    let s := List.span Char.isDigit r
    if s.1 = [] then none else some s.2
  | l => some l

/-- A JSON number (value truncated to its integer part). -/
def parseNumber (cs : List Char) : Option (Json × List Char) :=
  let signed := match cs with
    | '-' :: r => (true, r)
    | _ => (false, cs)
  let s := List.span Char.isDigit signed.2
  if s.1 = [] then none else
  match parseFrac s.2 with
  | none => none
  | some r1 =>
    match parseExp r1 with
    | none => none
    | some r2 =>
      some (Json.num (if signed.1 then -(digitsToNat s.1 : Int) else (digitsToNat s.1 : Int)), r2)

mutual

/-- A JSON value (after possible leading whitespace). -/
def parseValue : Nat → List Char → Option (Json × List Char)
  | 0, _ => none
  | fuel + 1, cs =>
    match skipWs cs with
    | 'n' :: 'u' :: 'l' :: 'l' :: rest => some (Json.null, rest)
    | 't' :: 'r' :: 'u' :: 'e' :: rest => some (Json.bool true, rest)
    | 'f' :: 'a' :: 'l' :: 's' :: 'e' :: rest => some (Json.bool false, rest)
    | '"' :: rest =>
      match parseJString rest with
      | some (content, rest') => some (Json.str (String.mk content), rest')
      | none => none
    | '[' :: rest =>
      match skipWs rest with
      | ']' :: rest' => some (Json.arr [], rest')
      | cs' =>
        match parseArrayItems fuel cs' with
        | some (xs, rest') => some (Json.arr xs, rest')
        | none => none
    | '\x7b' :: rest =>
      match skipWs rest with
      | '\x7d' :: rest' => some (Json.obj [], rest')
      | cs' =>
        match parseObjItems fuel cs' with
        | some (kvs, rest') => some (Json.obj kvs, rest')
        | none => none
    | cs' => parseNumber cs'

/-- Comma-separated array items, then the closing bracket. -/
def parseArrayItems : Nat → List Char → Option (List Json × List Char)
  | 0, _ => none
  | fuel + 1, cs =>
    match parseValue fuel cs with
    | none => none
    | some (v, rest) =>
      match skipWs rest with
      | ',' :: rest' =>
        match parseArrayItems fuel rest' with
        | some (xs, rest'') => some (v :: xs, rest'')
        | none => none
      | ']' :: rest' => some ([v], rest')
      | _ => none

/-- Comma-separated `"key": value` members, then the closing brace. -/
def parseObjItems : Nat → List Char → Option (List (String × Json) × List Char)
  | 0, _ => none
  | fuel + 1, cs =>
    match skipWs cs with
    | '"' :: rest =>
      match parseJString rest with
      | none => none
      | some (key, rest1) =>
        match skipWs rest1 with
        | ':' :: rest2 =>
          match parseValue fuel rest2 with
          | none => none
          | some (v, rest3) =>
            match skipWs rest3 with
            | ',' :: rest4 =>
              match parseObjItems fuel rest4 with
              | some (kvs, rest5) => some ((String.mk key, v) :: kvs, rest5)
              | none => none
            | '\x7d' :: rest4 => some ([(String.mk key, v)], rest4)
            | _ => none
        | _ => none
    | _ => none

end

/-- Embedding of `json.loads(s)`: the whole input must be one JSON value surrounded only
by whitespace, otherwise the call raises (modelled as `none`). -/
def json_loads (s : String) : Option Json :=
  match parseValue (s.toList.length + 2) s.toList with
  | some (v, rest) => if skipWs rest = [] then some v else none
  | none => none

/-! ## External collaborators

Outbound HTTP calls are represented by a `World` of responses together
with a trace of `Eff` events, one per outbound call the Python code
makes.  `requests` exceptions and non-success statuses are part of the
world. -/

/-- One comment of the review payload built by `post_review_comments`
(`path` is `None` when `find_file_path_in_pr` found no match). -/
structure FormattedComment where
  path : Option String
  position : Json
  body : Json

/-- The single review payload POSTed to `/pulls/{n}/reviews`. -/
structure ReviewPayload where
  commit_id : String
  body : String
  event : String
  comments : List FormattedComment

/-- Outbound calls, in the order they are issued. -/
inductive Eff where
  | tokenExchange (installation_id : Int)
  | getFiles
  | getPR
  | llmPost (filename : String)
  | postReview (payload : ReviewPayload)

/-- One changed-file record from `GET /pulls/{n}/files`; absent keys are
`none` (the Python code reads them with `.get` defaults). -/
structure FilePatch where
  filename : Option String
  status : Option String
  additions : Option Int
  deletions : Option Int
  patch : Option String

/-- Outcome of the `requests.post` to the LLM endpoint: a raised exception,
or a response with a status code and (when `choices[0].message.content` is
extractable) its content.  A 200 response whose `choices` are missing or
empty has content `none`. -/
inductive LLMOutcome where
  | exn (msg : String)
  | resp (status : Nat) (content : Option String)

/-- Responses of the external services for one webhook delivery. -/
structure World where
  jwt_token : String
  token_status : Nat
  installation_token : String
  files_status : Nat
  files : List FilePatch
  llm : String → LLMOutcome
  pr_status : Nat
  head_sha : String
  post_status : ReviewPayload → Nat

/-! ## auth.py -/

/-- Embedding of `generate_jwt()` from `src/api/auth.py`: builds and signs the app JWT
locally (no outbound call); the signed value is part of the world. -/
def generate_jwt (w : World) : String :=
  w.jwt_token

/-- Embedding of `get_installation_token(jwt_token, installation_id)` from
`src/api/auth.py`: always POSTs to the token-exchange endpoint, then
`raise_for_status()`, then returns the token from the JSON body.  There is
no cache of any kind. -/
def get_installation_token (w : World) (jwt_token : String) (installation_id : Int) :
    Except String String × List Eff :=
  ((if 400 ≤ w.token_status then Except.error "HTTPError" else Except.ok w.installation_token),
   [Eff.tokenExchange installation_id])

/-! ## model.py : language map, prompt, LLM query -/

/-- The `ext_map` dict of `get_file_language` (insertion order preserved). -/
def ext_map : List (String × String) :=
  [(".py", "Python"), (".js", "JavaScript"), (".jsx", "React/JSX"),
   (".ts", "TypeScript"), (".tsx", "React/TypeScript"), (".java", "Java"),
   (".cpp", "C++"), (".c", "C"), (".go", "Go"), (".rs", "Rust"),
   (".php", "PHP"), (".rb", "Ruby"), (".css", "CSS"), (".scss", "SCSS"),
   (".swift", "Swift"), (".kt", "Kotlin"), (".sql", "SQL"), (".html", "HTML"),
   (".vue", "Vue.js"), (".sh", "Shell Script"), (".yaml", "YAML"),
   (".yml", "YAML"), (".json", "JSON")]

/-- Embedding of `get_file_language(filename)` from `src/api/model.py`. -/
def get_file_language (filename : String) : String :=
  match ext_map.find? (fun p => pyEndsWith (pyLower filename) p.1) with
  | some p => p.2
  | none => "Unknown"

/-- The triple-quoted literal assigned to `prompt` in
`create_focused_prompt` (braces written as escapes). -/
def focused_prompt_text : String :=
  "You are a senior software engineer and code reviewer.\n" ++
  "Your mission: review code clearly and effectively, focusing on standards, readability, and maintainability.\n" ++
  "\n" ++
  " ### Output Format\n" ++
  "Return a JSON-like list of review objects, structured like this:\n" ++
  "[\n" ++
  "  \x7b\n" ++
  "    \"file\": \"filename\",\n" ++
  "    \"start_line\": line number,\n" ++
  "    \"end_line\": line number,\n" ++
  "    \"body\": \"Snippet:\n```language\ncode here\n```\n\nIssue: <short description>\nProblem: <why it matters>\nSolution:\n```diff\n- old code\n+ new code\n```\nRationale: <why this improves the code>\"\n" ++
  "  \x7d\n" ++
  "]\n" ++
  "\n" ++
  "### Review Focus\n" ++
  "Syntax & Structure\n" ++
  "Invalid code: Missing colons, semicolons, mismatched brackets/parentheses\n" ++
  "Proper indentation: Consistent use of spaces/tabs (follow language standards)\n" ++
  "Block structure: Proper opening/closing of functions, classes, loops\n" ++
  "Line length: Stay within recommended limits (80-120 characters)\n" ++
  "\n" ++
  "Naming Conventions\n" ++
  "Avoid shadowing: Don't override built-in functions/variables\n" ++
  "Follow style guides: PEP 8 (Python), Google Style Guide, etc.\n" ++
  "Meaningful names: Variables, functions, classes should be self-documenting\n" ++
  "Consistent naming: snake_case, camelCase, PascalCase as per language conventions\n" ++
  "Avoid abbreviations: Use user_count instead of usr_cnt\n" ++
  "\n" ++
  "Readability & Formatting\n" ++
  "Consistent formatting: Spacing around operators, after commas\n" ++
  "Logical grouping: Related code blocks together\n" ++
  "Clear variable names: Descriptive and contextual\n" ++
  "Avoid magic numbers: Use named constants\n" ++
  "Whitespace usage: Proper separation of logical sections\n" ++
  "\n" ++
  "Error Handling & Edge Cases\n" ++
  "Prevent crashes: Handle exceptions gracefully\n" ++
  "Input validation: Check for null, empty, out-of-bounds values\n" ++
  "Boundary conditions: Test minimum/maximum values\n" ++
  "Resource cleanup: Proper file/connection closing\n" ++
  "Graceful degradation: Fallback behavior when things fail\n" ++
  "\n" ++
  "Dependencies & Imports\n" ++
  "Remove unused imports: Clean up dead code\n" ++
  "Pin dependency versions: Avoid \"latest\" in production\n" ++
  "Minimize dependencies: Only include what's necessary\n" ++
  "Security updates: Keep dependencies current for vulnerabilities\n" ++
  "Import organization: Group standard, third-party, and local imports\n" ++
  "\n" ++
  "Documentation & Comments\n" ++
  "\n" ++
  "Docstrings: Function/class purpose, parameters, return values\n" ++
  "Inline comments: Explain complex logic, not obvious code\n" ++
  "Type hints: Parameter and return types (Python, TypeScript)\n" ++
  "API documentation: Clear interface contracts\n" ++
  "README files: Setup, usage, and contribution guidelines\n" ++
  "\n" ++
  "Maintainability & Design\n" ++
  "DRY principle: Don't Repeat Yourself - extract common code\n" ++
  "Single responsibility: Functions/classes should do one thing well\n" ++
  "Simplify complex logic: Break down large functions\n" ++
  "Consistent patterns: Use established project conventions\n" ++
  "Modular design: Loose coupling, high cohesion\n" ++
  "\n" ++
  "Security & Performance\n" ++
  "SQL injection: Use parameterized queries\n" ++
  "XSS prevention: Sanitize user inputs\n" ++
  "Authentication: Proper user verification\n" ++
  "Data exposure: Don't log sensitive information\n" ++
  "Performance bottlenecks: Identify inefficient algorithms/queries\n" ++
  "Memory leaks: Proper resource management\n" ++
  "\n" ++
  "Testing & Quality\n" ++
  "\n" ++
  "Test coverage: Unit tests for critical functionality\n" ++
  "Test quality: Edge cases, error conditions\n" ++
  "Test maintainability: Clear, isolated test cases\n" ++
  "Integration testing: Component interaction verification\n" ++
  "Code metrics: Cyclomatic complexity, maintainability index\n" ++
  "\n" ++
  "### Guidelines\n" ++
  "Be specific: include filename and line numbers\n" ++
  "Be constructive: explain issues in a helpful tone\n" ++
  "Be concise: no over-explaining\n" ++
  "Show diff format fixes whenever possible\n" ++
  "Ensure start_line and end_line are valid PR diff lines\n" ++
  "\n" ++
  "\n" ++
  "Example Review Output (JSON Style)\n" ++
  "[\n" ++
  "  \x7b\n" ++
  "    \"file\": \"user_service.py\",\n" ++
  "    \"start_line\": 45,\n" ++
  "    \"end_line\": 48,\n" ++
  "    \"body\": \"Snippet:\n```python\nexample\ndef sum(a, b):\n    return a + b\n```\n\nIssue: Built-in Shadowing\nProblem: `sum` is a Python built-in function. Overriding it can cause confusion and bugs.\nSolution:\n```diff\n- def sum(a, b):\n+ def add(a, b):\n```\nRationale: Using `add` avoids conflicts with the built-in.\n\"\n" ++
  "  \x7d,\n" ++
  "  \x7b\n" ++
  "    \"file\": \"user_service.py\",\n" ++
  "    \"start_line\": 45,\n" ++
  "    \"end_line\": 48,\n" ++
  "    \"body\": \"Issue: Style & Readability\nProblem: One-line function definition reduces readability.\nSolution:\n```python\ndef add(a: float, b: float) -> float:\n    \"\"\"Return the sum of two numbers.\"\"\"\n    return a + b\n```\nRationale: Improves readability, follows PEP8, adds type hints and docstring.\"\n" ++
  "  \x7d\n" ++
  "]\n"

/-- Embedding of `create_focused_prompt(filename, file_status, changes, language)` from
`src/api/model.py`.  The function computes `change_summary` and
`key_additions` exactly as the source does, but — as in the source — they
are never interpolated; the fixed literal is returned. -/
def create_focused_prompt (filename file_status : String) (changes : Changes)
    (language : String) : String :=
  let added_count := changes.added_lines.length
  let removed_count := changes.removed_lines.length
  let change_summary : List String :=
    if file_status == "added" then ["This is a new file"]
    else if file_status == "removed" then ["This file is being deleted"]
    else if file_status == "modified" then
      ["Modified with " ++ toString added_count ++ " additions and " ++
        toString removed_count ++ " deletions"]
    else if file_status == "renamed" then ["File was renamed and potentially modified"]
    else []
  let key_additions : List String :=
    if changes.added_lines ≠ [] then
      let sample_lines := changes.added_lines.take 3 ++
        (if changes.added_lines.length > 3 then
          changes.added_lines.drop (changes.added_lines.length - 2)
        else [])
      sample_lines.filterMap (fun p =>
        if pyStrip p.2 ≠ "" then some ("Line " ++ toString p.1 ++ ": " ++ pyStrip p.2)
        else none)
    else []
  focused_prompt_text

/-- Embedding of `query_openrouter_focused(filename, patch, file_status)` from
`src/api/model.py`.  The outer `try` never propagates: a raised
`requests` exception or a malformed `choices` structure is folded into
`LLMOutcome.exn` and reported as the `str(e)` message. -/
def query_openrouter_focused (w : World) (filename patch file_status : String) :
    String × List Eff :=
  let language := get_file_language filename
  let changes := parse_patch_changes patch
  if changes.added_lines.isEmpty && changes.removed_lines.isEmpty then
    ("No significant changes to review in this file.", [])
  else
    let focused_prompt := create_focused_prompt filename file_status changes language
    match w.llm filename with
    | LLMOutcome.exn msg => ("**Review Error**: " ++ msg, [Eff.llmPost filename])
    | LLMOutcome.resp status content =>
      if status ≠ 200 then ("**Review Error**: API error.", [Eff.llmPost filename])
      else
        match content with
        | some c => (c, [Eff.llmPost filename])
        | none => ("**Review Error**: No valid response.", [Eff.llmPost filename])


/-! ## main.py : Python dynamic operations on parsed review values

The review parsed by `json.loads` can be any JSON value; the posting code
then iterates it (`for c in comments`) and indexes it (`c["file"]`), which
in Python succeeds or raises depending on the runtime type. -/

/-- Python iteration over a decoded JSON value (`for c in comments`):
lists yield elements, dicts yield their keys, strings yield characters,
everything else raises `TypeError`. -/
def pyIter : Json → Except String (List Json)
  | Json.arr xs => Except.ok xs
  | Json.obj kvs => Except.ok (kvs.map (fun kv => Json.str kv.1))
  | Json.str s => Except.ok (s.toList.map (fun ch => Json.str (String.mk [ch])))
  | _ => Except.error "TypeError: not iterable"

/-- Python `c[key]` on a decoded JSON value: dict lookup (`KeyError` when
absent), `TypeError` otherwise. -/
def pyGetItem (c : Json) (key : String) : Except String Json :=
  match c with
  | Json.obj kvs =>
    match kvs.find? (fun kv => kv.1 == key) with
    | some kv => Except.ok kv.2
    | none => Except.error ("KeyError: " ++ key)
  | _ => Except.error "TypeError: value is not subscriptable by str"

/-! ## main.py : GitHub gateway helpers -/

/-- Embedding of `get_pr_commit_sha(owner, repo, pr_number)` from `src/api/main.py`:
`GET /pulls/{n}` then `raise_for_status()` then `data["head"]["sha"]`. -/
def get_pr_commit_sha (w : World) (owner repo : String) (pr_number : Int) :
    Except String String × List Eff :=
  ((if 400 ≤ w.pr_status then Except.error "HTTPError" else Except.ok w.head_sha),
   [Eff.getPR])

/-- Embedding of `find_file_path_in_pr(owner, repo, pr_number, filename)` from
`src/api/main.py`: fetches the changed-file list, returns the first file
whose path ends with `filename`, and `None` when there is no match.  The
runtime argument may be a non-string (it is `c["file"]` from the decoded
review); then the first `endswith` call raises `TypeError` — which can
only happen when the file list is non-empty. -/
def find_file_path_in_pr (w : World) (owner repo : String) (pr_number : Int)
    (filename : Json) : Except String (Option String) × List Eff :=
  ((if 400 ≤ w.files_status then Except.error "HTTPError"
    else
      match filename with
      | Json.str fn =>
        match w.files.find? (fun f => pyEndsWith (f.filename.getD "") fn) with
        | some f => Except.ok (some (f.filename.getD ""))
        | none => Except.ok none
      | _ => if w.files.isEmpty then Except.ok none else Except.error "TypeError"),
   [Eff.getFiles])

/-- Body of the comment-preparation loop of `post_review_comments`,
including its `try`/`except` arms: the result is the formatted comment to
append (if any), the contribution to `success_all`, and the trace.  On
`KeyError`/`Exception` the comment is dropped and `success_all` becomes
`False`; note that a `None` lookup result is NOT an error — the comment is
kept with `path = None`. -/
def prepComment (w : World) (owner repo : String) (pr_number : Int) (c : Json) :
    Option FormattedComment × Bool × List Eff :=
  match pyGetItem c "file" with
  | Except.error _ => (none, false, [])
  | Except.ok fileJson =>
    match find_file_path_in_pr w owner repo pr_number fileJson with
    | (Except.error _, effs) => (none, false, effs)
    | (Except.ok file_path, effs) =>
      match pyGetItem c "end_line" with
      | Except.error _ => (none, false, effs)
      | Except.ok endv =>
        match pyGetItem c "body" with
        | Except.error _ => (none, false, effs)
        | Except.ok bodyv => (some ⟨file_path, endv, bodyv⟩, true, effs)

/-- Folding `prepComment` over the comment list, accumulating
`formatted_comments`, `success_all` and the trace. -/
def prepFoldStep (w : World) (owner repo : String) (pr_number : Int)
    (st : List FormattedComment × Bool × List Eff) (c : Json) :
    List FormattedComment × Bool × List Eff :=
  match prepComment w owner repo pr_number c with
  | (some fc, ok, e) => (st.1 ++ [fc], st.2.1 && ok, st.2.2 ++ e)
  | (none, ok, e) => (st.1, st.2.1 && ok, st.2.2 ++ e)

/-- Embedding of `post_review_comments(owner, repo, pr_number, comments)` from
`src/api/main.py`: one commit-SHA fetch (failure propagates — it is
outside any `try`), then the preparation loop, then ONE `POST
/pulls/{n}/reviews` with all prepared comments; a non-201 status makes
the returned flag `False`. -/
def post_review_comments (w : World) (owner repo : String) (pr_number : Int)
    (comments : Json) : Except String Bool × List Eff :=
  match get_pr_commit_sha w owner repo pr_number with
  | (Except.error e, effs) => (Except.error e, effs)
  | (Except.ok commit_id, effs0) =>
    match pyIter comments with
    | Except.error e => (Except.error e, effs0)
    | Except.ok cs =>
      let prep := cs.foldl (prepFoldStep w owner repo pr_number) ([], true, [])
      let payload : ReviewPayload :=
        ⟨commit_id, "🤖 Automated AI Code Review Summary", "COMMENT", prep.1⟩
      ((if w.post_status payload = 201 then Except.ok prep.2.1 else Except.ok false),
       effs0 ++ prep.2.2 ++ [Eff.postReview payload])

/-! ## main.py : file filter -/

/-- The `code_extensions` list of `should_review_file`. -/
def code_extensions : List String :=
  [".py", ".js", ".jsx", ".ts", ".tsx", ".java", ".cpp", ".c", ".go",
   ".rs", ".php", ".rb", ".swift", ".kt", ".sql", ".css", ".scss",
   ".html", ".vue", ".sh"]

/-- The predicate of the `meaningful_lines` comprehension in
`should_review_file`. -/
def meaningful_line (line : String) : Bool :=
  (pyStartsWith line "+" || pyStartsWith line "-") &&
  !(pyStrip line == "") &&
  !pyStartsWith line "+++" &&
  !pyStartsWith line "---"

/-- Embedding of `should_review_file(filename, patch)` from `src/api/main.py`. -/
def should_review_file (filename patch : String) : Bool :=
  if patch == "" || patch == "No patch available" then false
  else if !(code_extensions.any (fun ext => pyEndsWith (pyLower filename) ext)) then false
  else if (pySplitLines patch).length > 1000 then false
  else if ((pySplitLines patch).filter meaningful_line).length < 2 then false
  else true

/-! ## main.py : webhook handler -/

/-- The `str(e)` text of the `json.JSONDecodeError` raised by
`json.loads` on non-JSON input.  The concrete wording varies with the
input; it is represented by one abstract message (no claim depends on
its exact text). -/
def json_decode_error_msg : String := "Expecting value"

/-- The `error_review` built by the per-file `except` arm of the webhook
loop: a one-element list holding a synthetic error finding. -/
def syntheticReview (filename : String) : Json :=
  Json.arr [Json.obj [("body",
    Json.str ("Review error in `" ++ filename ++ "`: " ++ json_decode_error_msg))]]

/-- The per-file `try`/`except` body of the webhook loop: query the LLM,
strip newlines, `json.loads`; any exception is downgraded to the
synthetic one-element error review.  Never raises. -/
def perFileReview (w : World) (filename patch status : String) : Json × List Eff :=
  let q := query_openrouter_focused w filename patch status
  let review_json := pyReplace q.1 "\n" ""
  match json_loads review_json with
  | some parsed => (parsed, q.2)
  | none => (syntheticReview filename, q.2)

/-- One iteration of the `for file in files` loop: extract the fields with
their `.get` defaults, filter with `should_review_file`, count and collect
the per-file review.  (The `last_patches` global is write-only state with
no effect on the response and is not modelled.) -/
def collectStep (w : World) (st : Nat × List Json × List Eff) (file : FilePatch) :
    Nat × List Json × List Eff :=
  let filename := file.filename.getD "Unknown"
  let status := file.status.getD "Unknown"
  let patch := file.patch.getD ""
  if should_review_file filename patch then
    let r := perFileReview w filename patch status
    (st.1 + 1, st.2.1 ++ [r.1], st.2.2 ++ r.2)
  else st

/-- The whole `for file in files` loop: `code_files_count`, `all_reviews`
and the trace of LLM calls. -/
def collectReviews (w : World) (files : List FilePatch) : Nat × List Json × List Eff :=
  files.foldl (collectStep w) (0, [], [])

/-- One iteration of the posting loop `for review in all_reviews:
success = post_review_comments(...)`: each call overwrites `success`; an
exception aborts the loop and propagates. -/
def postStep (w : World) (owner repo : String) (pr_number : Int)
    (acc : Except String Bool × List Eff) (review : Json) :
    Except String Bool × List Eff :=
  match acc with
  | (Except.error e, effs) => (Except.error e, effs)
  | (Except.ok _, effs) =>
    let r := post_review_comments w owner repo pr_number review
    (r.1, effs ++ r.2)

/-- The posting loop of the webhook handler, starting from
`success = False` (so an empty review list reports `success = False`
without any POST). -/
def postAllReviews (w : World) (owner repo : String) (pr_number : Int)
    (reviews : List Json) : Except String Bool × List Eff :=
  reviews.foldl (postStep w owner repo pr_number) (Except.ok false, [])

/-- The `payload["pull_request"]` fields that the handler reads. -/
structure PRData where
  number : Option Int
  title : Option String

/-- The `payload["repository"]` fields that the handler reads (their own
absence would raise the same `KeyError` as an absent `repository`; the
two are collapsed). -/
structure RepoInfo where
  name : String
  owner_login : String

/-- The webhook JSON body.  `pull_request = none` means the key is absent;
`some none` means it is present but falsy (the `"No PR data"` branch). -/
structure Payload where
  pull_request : Option (Option PRData)
  action : Option String
  repository : Option RepoInfo
  installation : Option Int

/-- The handler's possible HTTP-level outcomes: a bare `{"message": ...}`
dict, the full summary dict, or an `HTTPException`. -/
inductive WebhookResult where
  | msg (message : String)
  | summary (message : String) (repository : String) (pr_number : Int)
      (action : Option String) (files_total : Nat) (files_reviewed : Nat)
      (review_posted : Bool) (success : Bool)
  | httpError (status : Nat) (detail : String)

/-- The `success` field of the response, when the summary was reached. -/
def WebhookResult.successFlag : WebhookResult → Option Bool
  | WebhookResult.summary _ _ _ _ _ _ _ s => some s
  | _ => none

/-- The token-refresh / fetch / review / post part of the handler, reached
once the payload checks and the ignored-action check have passed. -/
def webhookMain (w : World) (action : Option String) (owner repo : String)
    (installation_id pr_number : Int) : WebhookResult × List Eff :=
  let jwt_token := generate_jwt w
  match get_installation_token w jwt_token installation_id with
  | (Except.error e, effs) =>
    (WebhookResult.httpError 500 ("Webhook processing failed: " ++ e), effs)
  | (Except.ok _token, effs0) =>
    let effs1 := effs0 ++ [Eff.getFiles]
    if w.files_status ≠ 200 then
      (WebhookResult.httpError 500 "Failed to fetch PR files", effs1)
    else
      let col := collectReviews w w.files
      let post := postAllReviews w owner repo pr_number col.2.1
      match post.1 with
      | Except.error e =>
        (WebhookResult.httpError 500 ("Webhook processing failed: " ++ e),
         effs1 ++ col.2.2 ++ post.2)
      | Except.ok success =>
        (WebhookResult.summary "Webhook processed successfully" (owner ++ "/" ++ repo)
          pr_number action w.files.length col.1 (!col.2.1.isEmpty) success,
         effs1 ++ col.2.2 ++ post.2)

/-- Embedding of `github_webhook(request)` from `src/api/main.py`, as a function of the
decoded JSON payload and the world.  Uncaught exceptions become the
`HTTPException(500, "Webhook processing failed: ...")` of the outer
`except`; the explicit `HTTPException` for a failed file fetch is
re-raised unchanged. -/
def github_webhook (w : World) (payload : Payload) : WebhookResult × List Eff :=
  match payload.pull_request with
  | none => (WebhookResult.msg "Not a PR event", [])
  | some pull_request =>
    let action := payload.action
    match pull_request with
    | none => (WebhookResult.msg "No PR data", [])
    | some pr_data =>
      match payload.repository, payload.installation, pr_data.number with
      | some repoInfo, some installation_id, some pr_number =>
        let repo := repoInfo.name
        let owner := repoInfo.owner_login
        let pr_title := pr_data.title.getD ""
        match action with
        | some a =>
          if a == "closed" || a == "locked" || a == "unlocked" then
            (WebhookResult.msg ("Action " ++ a ++ " ignored"), [])
          else
            webhookMain w action owner repo installation_id pr_number
        | none => webhookMain w action owner repo installation_id pr_number
      | _, _, _ =>
        (WebhookResult.httpError 500 "Webhook processing failed: KeyError", [])

/-- Whether an event is the review POST. -/
def Eff.isPost : Eff → Bool
  | Eff.postReview _ => true
  | _ => false

/-- Number of review POSTs in a trace. -/
def countPost (effs : List Eff) : Nat := effs.countP Eff.isPost

/-- Number of token exchanges in a trace. -/
def countExchange (effs : List Eff) : Nat :=
  effs.countP (fun e => match e with | Eff.tokenExchange _ => true | _ => false)

/-- Whether a decoded review value is a list at all. -/
def Json.isList : Json → Bool
  | Json.arr _ => true
  | _ => false

/-! ## Concrete worlds and inputs used by closed runs -/

/-- Two reviewable Python files; the LLM answers the JSON list `[]` for
every file; GitHub accepts everything. -/
def wDemo : World :=
  ⟨"jwt", 201, "tok", 200,
   [⟨some "a.py", some "modified", some 2, some 0, some "@@ -1,2 +1,3 @@\n ctx\n+x = 1\n+y = 2"⟩,
    ⟨some "b.py", some "modified", some 2, some 0, some "@@ -1,2 +1,3 @@\n ctx\n+u = 1\n+v = 2"⟩],
   fun _ => LLMOutcome.resp 200 (some "[]"), 200, "sha0", fun _ => 201⟩

/-- A well-formed pull-request payload with action `"opened"`. -/
def payloadDemo : Payload :=
  ⟨some (some ⟨some 7, some "title"⟩), some "opened", some ⟨"repo", "owner"⟩, some 42⟩

/-- One changed file at a nested path, for the path-resolution run. -/
def wC3 : World :=
  ⟨"jwt", 201, "tok", 200,
   [⟨some "src/app.py", some "modified", some 1, some 0, some "+a"⟩],
   fun _ => LLMOutcome.resp 200 (some "[]"), 200, "sha0", fun _ => 201⟩

/-- Two findings: one whose file does not occur in the changed-file list,
one that resolves to the nested path. -/
def cmtsC3 : Json :=
  Json.arr
    [Json.obj [("file", Json.str "missing.css"), ("end_line", Json.num 2),
      ("body", Json.str "b1")],
     Json.obj [("file", Json.str "app.py"), ("end_line", Json.num 3),
      ("body", Json.str "b2")]]

/-- An LLM that answers HTTP 200 with the JSON object `{}` — valid JSON
but not a list of findings. -/
def wC4 : World :=
  ⟨"jwt", 201, "tok", 200, [], fun _ => LLMOutcome.resp 200 (some "\x7b\x7d"),
   200, "sha0", fun _ => 201⟩

/-- An LLM that answers HTTP 500. -/
def w500 : World :=
  ⟨"jwt", 201, "tok", 200, [], fun _ => LLMOutcome.resp 500 none,
   200, "sha0", fun _ => 201⟩

/-- An LLM that answers HTTP 200 with non-JSON content. -/
def wBadJson : World :=
  ⟨"jwt", 201, "tok", 200, [], fun _ => LLMOutcome.resp 200 (some "not json"),
   200, "sha0", fun _ => 201⟩

/-- Two reviewable files whose reviews post differently: the first file's
review carries one finding (the POST is rejected with 400), the second's
is empty (the POST is accepted with 201). -/
def wC10 : World :=
  ⟨"jwt", 201, "tok", 200,
   [⟨some "a.py", some "modified", some 2, some 0, some "@@ -1,2 +1,3 @@\n ctx\n+x = 1\n+y = 2"⟩,
    ⟨some "b.py", some "modified", some 2, some 0, some "@@ -1,2 +1,3 @@\n ctx\n+u = 1\n+v = 2"⟩],
   fun fn => if fn == "a.py" then
       LLMOutcome.resp 200
         (some "[\x7b\"file\": \"a.py\", \"end_line\": 1, \"body\": \"x\"\x7d]")
     else LLMOutcome.resp 200 (some "[]"),
   200, "sha0", fun pl => if pl.comments.isEmpty then 201 else 400⟩

/-- The payload used with `wC10`. -/
def payloadC10 : Payload :=
  ⟨some (some ⟨some 5, none⟩), some "opened", some ⟨"r", "o"⟩, some 3⟩


/-! ## Ghost trace for the diff parser

`hunkRecs` replays the loop of `parse_patch_changes`, recording — in the
order the lines appear — the new-file line number assigned to each added
or context line.  It is proved below to agree with the parser itself, so
properties of the trace are properties of `parse_patch_changes`. -/

/-- One recorded line-number assignment. -/
inductive LineRec where
  | add (n : Nat)
  | ctx (n : Nat)

/-- The chronological sequence of assignments the parser loop makes. -/
def hunkRecs : List String → Nat → List LineRec
  | [], _ => []
  | line :: rest, n =>
    if pyStartsWith line "@@" then
      match searchHunkHeader line with
      | some c => hunkRecs rest c
      | none => hunkRecs rest n
    else if pyStartsWith line "+" && !pyStartsWith line "+++" then
      LineRec.add n :: hunkRecs rest (n + 1)
    else if pyStartsWith line "-" then
      hunkRecs rest n
    else if !(line == "") && !pyStartsWith line "\\" then
      LineRec.ctx n :: hunkRecs rest (n + 1)
    else hunkRecs rest n

/-- The line number of a recorded assignment. -/
def recNum : LineRec → Nat
  | LineRec.add n => n
  | LineRec.ctx n => n

/-- All assigned numbers, chronologically. -/
def recNums (rs : List LineRec) : List Nat := rs.map recNum

/-- The numbers assigned to added lines, chronologically. -/
def addNums (rs : List LineRec) : List Nat :=
  rs.filterMap (fun r => match r with | LineRec.add n => some n | _ => none)

/-- The numbers assigned to context lines, chronologically. -/
def ctxNums (rs : List LineRec) : List Nat :=
  rs.filterMap (fun r => match r with | LineRec.ctx n => some n | _ => none)

lemma span_loop_all_append (p : Char → Bool) (l : List Char) (x : Char)
    (rest : List Char) (h : ∀ c ∈ l, p c = true) (hx : p x = false) :
    ∀ acc, List.span.loop p (l ++ x :: rest) acc = (acc.reverse ++ l, x :: rest) := by
  induction l with
  | nil => intro acc; simp [List.span.loop, hx]
  | cons a as ih =>
    intro acc
    have ha : p a = true := h a (by simp)
    have h' : ∀ c ∈ as, p c = true := fun c hc => h c (by simp [hc])
    have step : List.span.loop p (a :: (as ++ x :: rest)) acc =
        List.span.loop p (as ++ x :: rest) (a :: acc) := by
      simp [List.span.loop, ha]
    rw [List.cons_append, step, ih h' (a :: acc)]
    simp

lemma span_all_append (p : Char → Bool) (l : List Char) (x : Char)
    (rest : List Char) (h : ∀ c ∈ l, p c = true) (hx : p x = false) :
    List.span p (l ++ x :: rest) = (l, x :: rest) := by
  show List.span.loop p (l ++ x :: rest) [] = (l, x :: rest)
  rw [span_loop_all_append p l x rest h hx []]
  simp

/-- A well-formed hunk header `@@ -a,b +c,d @@` assembled from explicit
digit strings. -/
def mkHeader (s1 s2 s3 s4 : List Char) : String :=
  String.mk ('@' :: '@' :: ' ' :: '-' ::
    (s1 ++ ',' :: (s2 ++ ' ' :: '+' :: (s3 ++ ',' :: (s4 ++ [' ', '@', '@'])))))

lemma matchHeaderAt_mkHeader (s1 s2 s3 s4 : List Char)
    (h1 : ∀ c ∈ s1, c.isDigit = true) (h2 : ∀ c ∈ s2, c.isDigit = true)
    (h3 : ∀ c ∈ s3, c.isDigit = true) (h4 : ∀ c ∈ s4, c.isDigit = true)
    (n1 : s1 ≠ []) (n3 : s3 ≠ []) :
    matchHeaderAt ('@' :: '@' :: ' ' :: '-' ::
      (s1 ++ ',' :: (s2 ++ ' ' :: '+' :: (s3 ++ ',' :: (s4 ++ [' ', '@', '@']))))) =
      some (digitsToNat s3) := by
  have e1 : List.span Char.isDigit
      (s1 ++ ',' :: (s2 ++ ' ' :: '+' :: (s3 ++ ',' :: (s4 ++ [' ', '@', '@'])))) =
      (s1, ',' :: (s2 ++ ' ' :: '+' :: (s3 ++ ',' :: (s4 ++ [' ', '@', '@'])))) :=
    span_all_append _ _ _ _ h1 (by decide)
  have e2 : List.span Char.isDigit
      (s2 ++ ' ' :: '+' :: (s3 ++ ',' :: (s4 ++ [' ', '@', '@']))) =
      (s2, ' ' :: '+' :: (s3 ++ ',' :: (s4 ++ [' ', '@', '@']))) :=
    span_all_append _ _ _ _ h2 (by decide)
  have e3 : List.span Char.isDigit (s3 ++ ',' :: (s4 ++ [' ', '@', '@'])) =
      (s3, ',' :: (s4 ++ [' ', '@', '@'])) :=
    span_all_append _ _ _ _ h3 (by decide)
  have e4 : List.span Char.isDigit (s4 ++ [' ', '@', '@']) =
      (s4, [' ', '@', '@']) := by
    have he : (s4 ++ [' ', '@', '@']) = s4 ++ ' ' :: ['@', '@'] := by simp
    rw [he]
    exact span_all_append _ _ _ _ h4 (by decide)
  simp only [matchHeaderAt, e1, e2, e3, e4, skipComma]
  simp [n1, n3]

lemma searchHunkHeader_mkHeader (s1 s2 s3 s4 : List Char)
    (h1 : ∀ c ∈ s1, c.isDigit = true) (h2 : ∀ c ∈ s2, c.isDigit = true)
    (h3 : ∀ c ∈ s3, c.isDigit = true) (h4 : ∀ c ∈ s4, c.isDigit = true)
    (n1 : s1 ≠ []) (n3 : s3 ≠ []) :
    searchHunkHeader (mkHeader s1 s2 s3 s4) = some (digitsToNat s3) := by
  have hL : (mkHeader s1 s2 s3 s4).toList = '@' :: '@' :: ' ' :: '-' ::
      (s1 ++ ',' :: (s2 ++ ' ' :: '+' :: (s3 ++ ',' :: (s4 ++ [' ', '@', '@'])))) := rfl
  show searchHeaderAux (mkHeader s1 s2 s3 s4).toList = _
  rw [hL, searchHeaderAux,
    matchHeaderAt_mkHeader s1 s2 s3 s4 h1 h2 h3 h4 n1 n3]

lemma pyStartsWith_mkHeader (s1 s2 s3 s4 : List Char) :
    pyStartsWith (mkHeader s1 s2 s3 s4) "@@" = true := by
  show List.isPrefixOf "@@".toList (mkHeader s1 s2 s3 s4).toList = true
  have hL : (mkHeader s1 s2 s3 s4).toList = '@' :: '@' :: ' ' :: '-' ::
      (s1 ++ ',' :: (s2 ++ ' ' :: '+' :: (s3 ++ ',' :: (s4 ++ [' ', '@', '@'])))) := rfl
  have hp : "@@".toList = ['@', '@'] := rfl
  rw [hL, hp]
  simp [List.isPrefixOf]

lemma pyStartsWith_minus_not_plus (line : String)
    (h : pyStartsWith line "-" = true) : pyStartsWith line "+" = false := by
  have hm : "-".toList = ['-'] := rfl
  have hp : "+".toList = ['+'] := rfl
  unfold pyStartsWith at h ⊢
  rw [hm] at h
  rw [hp]
  cases hl : line.toList with
  | nil => rw [hl] at h; simp [List.isPrefixOf] at h
  | cons c t =>
    rw [hl] at h
    have hand : (('-' == c) && List.isPrefixOf ([] : List Char) t) = true := h
    have hc : ('-' == c) = true := by
      cases hbe : ('-' == c) with
      | true => rfl
      | false => simp [hbe] at hand
    have hc' : c = '-' := (beq_iff_eq.mp hc).symm
    subst hc'
    show (('+' == '-') && List.isPrefixOf ([] : List Char) t) = false
    rw [show ('+' == '-') = false from by decide]
    exact Bool.false_and _

/-! Step equations for `parseStep` and `hunkRecs`, one per branch of the
Python loop body. -/

lemma parseStep_header_some (c : Changes) (n : Nat) (line : String) (k : Nat)
    (H1 : pyStartsWith line "@@" = true) (H2 : searchHunkHeader line = some k) :
    parseStep (c, n) line = (c, k) := by
  simp [parseStep, H1, H2]

lemma parseStep_header_none (c : Changes) (n : Nat) (line : String)
    (H1 : pyStartsWith line "@@" = true) (H2 : searchHunkHeader line = none) :
    parseStep (c, n) line = (c, n) := by
  simp [parseStep, H1, H2]

lemma parseStep_add (c : Changes) (n : Nat) (line : String)
    (H1 : pyStartsWith line "@@" = false)
    (H2 : (pyStartsWith line "+" && !pyStartsWith line "+++") = true) :
    parseStep (c, n) line =
      (⟨c.added_lines ++ [(n, pyDrop1 line)], c.removed_lines,
        c.context_lines, c.line_numbers ++ [n]⟩, n + 1) := by
  simp [parseStep, H1, H2]

lemma parseStep_minus (c : Changes) (n : Nat) (line : String)
    (H1 : pyStartsWith line "@@" = false)
    (H2 : (pyStartsWith line "+" && !pyStartsWith line "+++") = false)
    (H3 : pyStartsWith line "-" = true) :
    parseStep (c, n) line =
      (⟨c.added_lines, c.removed_lines ++ [pyDrop1 line],
        c.context_lines, c.line_numbers⟩, n) := by
  simp [parseStep, H1, H2, H3]

lemma parseStep_ctx (c : Changes) (n : Nat) (line : String)
    (H1 : pyStartsWith line "@@" = false)
    (H2 : (pyStartsWith line "+" && !pyStartsWith line "+++") = false)
    (H3 : pyStartsWith line "-" = false)
    (H4 : (!(line == "") && !pyStartsWith line "\\") = true) :
    parseStep (c, n) line =
      (⟨c.added_lines, c.removed_lines,
        c.context_lines ++ [(n, if pyStartsWith line " " then pyDrop1 line else line)],
        c.line_numbers⟩, n + 1) := by
  simp [parseStep, H1, H2, H3, H4]

lemma parseStep_skip (c : Changes) (n : Nat) (line : String)
    (H1 : pyStartsWith line "@@" = false)
    (H2 : (pyStartsWith line "+" && !pyStartsWith line "+++") = false)
    (H3 : pyStartsWith line "-" = false)
    (H4 : (!(line == "") && !pyStartsWith line "\\") = false) :
    parseStep (c, n) line = (c, n) := by
  simp [parseStep, H1, H2, H3, H4]

lemma hunkRecs_header_some (line : String) (rest : List String) (n k : Nat)
    (H1 : pyStartsWith line "@@" = true) (H2 : searchHunkHeader line = some k) :
    hunkRecs (line :: rest) n = hunkRecs rest k := by
  simp [hunkRecs, H1, H2]

lemma hunkRecs_header_none (line : String) (rest : List String) (n : Nat)
    (H1 : pyStartsWith line "@@" = true) (H2 : searchHunkHeader line = none) :
    hunkRecs (line :: rest) n = hunkRecs rest n := by
  simp [hunkRecs, H1, H2]

lemma hunkRecs_add (line : String) (rest : List String) (n : Nat)
    (H1 : pyStartsWith line "@@" = false)
    (H2 : (pyStartsWith line "+" && !pyStartsWith line "+++") = true) :
    hunkRecs (line :: rest) n = LineRec.add n :: hunkRecs rest (n + 1) := by
  simp [hunkRecs, H1, H2]

lemma hunkRecs_minus (line : String) (rest : List String) (n : Nat)
    (H1 : pyStartsWith line "@@" = false)
    (H2 : (pyStartsWith line "+" && !pyStartsWith line "+++") = false)
    (H3 : pyStartsWith line "-" = true) :
    hunkRecs (line :: rest) n = hunkRecs rest n := by
  simp [hunkRecs, H1, H2, H3]

lemma hunkRecs_ctx (line : String) (rest : List String) (n : Nat)
    (H1 : pyStartsWith line "@@" = false)
    (H2 : (pyStartsWith line "+" && !pyStartsWith line "+++") = false)
    (H3 : pyStartsWith line "-" = false)
    (H4 : (!(line == "") && !pyStartsWith line "\\") = true) :
    hunkRecs (line :: rest) n = LineRec.ctx n :: hunkRecs rest (n + 1) := by
  simp [hunkRecs, H1, H2, H3, H4]

lemma hunkRecs_skip (line : String) (rest : List String) (n : Nat)
    (H1 : pyStartsWith line "@@" = false)
    (H2 : (pyStartsWith line "+" && !pyStartsWith line "+++") = false)
    (H3 : pyStartsWith line "-" = false)
    (H4 : (!(line == "") && !pyStartsWith line "\\") = false) :
    hunkRecs (line :: rest) n = hunkRecs rest n := by
  simp [hunkRecs, H1, H2, H3, H4]

lemma addNums_cons_add (n : Nat) (rs : List LineRec) :
    addNums (LineRec.add n :: rs) = n :: addNums rs := by
  simp [addNums]

lemma addNums_cons_ctx (n : Nat) (rs : List LineRec) :
    addNums (LineRec.ctx n :: rs) = addNums rs := by
  simp [addNums]

lemma ctxNums_cons_add (n : Nat) (rs : List LineRec) :
    ctxNums (LineRec.add n :: rs) = ctxNums rs := by
  simp [ctxNums]

lemma ctxNums_cons_ctx (n : Nat) (rs : List LineRec) :
    ctxNums (LineRec.ctx n :: rs) = n :: ctxNums rs := by
  simp [ctxNums]

/-- The trace agrees with the parser: folding `parseStep` from any state
appends to `added_lines` (resp. `context_lines`) exactly the numbers the
trace records for added (resp. context) lines, in the same order. -/
lemma foldl_parseStep_agrees (lines : List String) :
    ∀ (c : Changes) (n : Nat),
      (lines.foldl parseStep (c, n)).1.added_lines.map Prod.fst =
        c.added_lines.map Prod.fst ++ addNums (hunkRecs lines n) ∧
      (lines.foldl parseStep (c, n)).1.context_lines.map Prod.fst =
        c.context_lines.map Prod.fst ++ ctxNums (hunkRecs lines n) := by
  induction lines with
  | nil => intro c n; simp [hunkRecs, addNums, ctxNums]
  | cons line rest ih =>
    intro c n
    rw [List.foldl_cons]
    cases h1 : pyStartsWith line "@@" with
    | true =>
      cases h2 : searchHunkHeader line with
      | some k =>
        rw [parseStep_header_some c n line k h1 h2,
          hunkRecs_header_some line rest n k h1 h2]
        exact ih c k
      | none =>
        rw [parseStep_header_none c n line h1 h2,
          hunkRecs_header_none line rest n h1 h2]
        exact ih c n
    | false =>
      cases h2 : (pyStartsWith line "+" && !pyStartsWith line "+++") with
      | true =>
        rw [parseStep_add c n line h1 h2, hunkRecs_add line rest n h1 h2]
        have IH := ih ⟨c.added_lines ++ [(n, pyDrop1 line)], c.removed_lines,
          c.context_lines, c.line_numbers ++ [n]⟩ (n + 1)
        refine ⟨?_, ?_⟩
        · rw [IH.1, addNums_cons_add]
          simp
        · rw [IH.2, ctxNums_cons_add]
      | false =>
        cases h3 : pyStartsWith line "-" with
        | true =>
          rw [parseStep_minus c n line h1 h2 h3, hunkRecs_minus line rest n h1 h2 h3]
          exact ih ⟨c.added_lines, c.removed_lines ++ [pyDrop1 line],
            c.context_lines, c.line_numbers⟩ n
        | false =>
          cases h4 : (!(line == "") && !pyStartsWith line "\\") with
          | true =>
            rw [parseStep_ctx c n line h1 h2 h3 h4, hunkRecs_ctx line rest n h1 h2 h3 h4]
            have IH := ih ⟨c.added_lines, c.removed_lines,
              c.context_lines ++ [(n, if pyStartsWith line " " then pyDrop1 line else line)],
              c.line_numbers⟩ (n + 1)
            refine ⟨?_, ?_⟩
            · rw [IH.1, addNums_cons_ctx]
            · rw [IH.2, ctxNums_cons_ctx]
              simp
          | false =>
            rw [parseStep_skip c n line h1 h2 h3 h4, hunkRecs_skip line rest n h1 h2 h3 h4]
            exact ih c n

/-- Within a header-free run of lines the trace is strictly increasing and
bounded below by the running counter. -/
lemma hunkRecs_chain (lines : List String) :
    ∀ (n : Nat), (∀ l ∈ lines, pyStartsWith l "@@" = false) →
      List.Chain' (· < ·) (recNums (hunkRecs lines n)) ∧
      (∀ k ∈ recNums (hunkRecs lines n), n ≤ k) := by
  induction lines with
  | nil => intro n h; simp [hunkRecs, recNums]
  | cons line rest ih =>
    intro n h
    have hline : pyStartsWith line "@@" = false := h line (by simp)
    have hrest : ∀ l ∈ rest, pyStartsWith l "@@" = false :=
      fun l hl => h l (by simp [hl])
    cases h2 : (pyStartsWith line "+" && !pyStartsWith line "+++") with
    | true =>
      have IH := ih (n + 1) hrest
      rw [hunkRecs_add line rest n hline h2]
      have hrec : recNums (LineRec.add n :: hunkRecs rest (n + 1)) =
          n :: recNums (hunkRecs rest (n + 1)) := by simp [recNums, recNum]
      rw [hrec]
      refine ⟨?_, ?_⟩
      · rw [List.chain'_cons']
        refine ⟨fun y hy => ?_, IH.1⟩
        have hmem : y ∈ recNums (hunkRecs rest (n + 1)) := List.mem_of_mem_head? hy
        exact lt_of_lt_of_le (Nat.lt_succ_self n) (IH.2 y hmem)
      · intro k hk
        rcases List.mem_cons.mp hk with rfl | hk
        · exact le_refl k
        · exact le_trans (Nat.le_succ n) (IH.2 k hk)
    | false =>
      cases h3 : pyStartsWith line "-" with
      | true =>
        rw [hunkRecs_minus line rest n hline h2 h3]
        exact ih n hrest
      | false =>
        cases h4 : (!(line == "") && !pyStartsWith line "\\") with
        | true =>
          have IH := ih (n + 1) hrest
          rw [hunkRecs_ctx line rest n hline h2 h3 h4]
          have hrec : recNums (LineRec.ctx n :: hunkRecs rest (n + 1)) =
              n :: recNums (hunkRecs rest (n + 1)) := by simp [recNums, recNum]
          rw [hrec]
          refine ⟨?_, ?_⟩
          · rw [List.chain'_cons']
            refine ⟨fun y hy => ?_, IH.1⟩
            have hmem : y ∈ recNums (hunkRecs rest (n + 1)) := List.mem_of_mem_head? hy
            exact lt_of_lt_of_le (Nat.lt_succ_self n) (IH.2 y hmem)
          · intro k hk
            rcases List.mem_cons.mp hk with rfl | hk
            · exact le_refl k
            · exact le_trans (Nat.le_succ n) (IH.2 k hk)
        | false =>
          rw [hunkRecs_skip line rest n hline h2 h3 h4]
          exact ih n hrest

/-! ## Lemmas about the posting loop -/

/-- When the PR read succeeds and the review value is iterable, the
posting call returns normally (with some boolean). -/
lemma post_review_comments_ok (w : World) (o r : String) (p : Int) (rv : Json)
    (hpr : w.pr_status < 400) (hiter : ∃ cs, pyIter rv = Except.ok cs) :
    ∃ b, (post_review_comments w o r p rv).1 = Except.ok b := by
  obtain ⟨cs, hcs⟩ := hiter
  have hn : ¬(400 ≤ w.pr_status) := not_le.mpr hpr
  unfold post_review_comments get_pr_commit_sha
  simp only [hn, if_false, hcs]
  by_cases hps : w.post_status ⟨w.head_sha, "🤖 Automated AI Code Review Summary",
      "COMMENT", (cs.foldl (prepFoldStep w o r p) ([], true, [])).1⟩ = 201
  · refine ⟨(cs.foldl (prepFoldStep w o r p) ([], true, [])).2.1, ?_⟩
    simp [hps]
  · exact ⟨false, by simp [hps]⟩

/-- A posting-loop step from a normally-returned accumulator overwrites the
flag with the new call's result. -/
lemma postStep_ok (w : World) (o r : String) (p : Int)
    (acc : Except String Bool × List Eff) (rv : Json)
    (hacc : ∃ b, acc.1 = Except.ok b) :
    postStep w o r p acc rv =
      ((post_review_comments w o r p rv).1,
       acc.2 ++ (post_review_comments w o r p rv).2) := by
  obtain ⟨b, hb⟩ := hacc
  rcases acc with ⟨a1, a2⟩
  have hb' : a1 = Except.ok b := hb
  subst hb'
  rfl

/-- The posting loop's final flag is the result of the LAST call (or the
initial accumulator when there is nothing to post). -/
lemma foldl_postStep_result (w : World) (o r : String) (p : Int) :
    ∀ (reviews : List Json) (acc : Except String Bool × List Eff),
      (∃ b, acc.1 = Except.ok b) →
      w.pr_status < 400 →
      (∀ rv ∈ reviews, ∃ cs, pyIter rv = Except.ok cs) →
      (reviews.foldl (postStep w o r p) acc).1 =
        (match reviews.getLast? with
         | some last => (post_review_comments w o r p last).1
         | none => acc.1) := by
  intro reviews
  induction reviews with
  | nil => intro acc hacc hpr hiter; rfl
  | cons rv rest ih =>
    intro acc hacc hpr hiter
    rw [List.foldl_cons, postStep_ok w o r p acc rv hacc]
    have hok := post_review_comments_ok w o r p rv hpr (hiter rv (by simp))
    have hacc' : ∃ b, ((post_review_comments w o r p rv).1,
        acc.2 ++ (post_review_comments w o r p rv).2).1 = Except.ok b := hok
    cases rest with
    | nil => rfl
    | cons rv2 rest2 =>
      rw [ih _ hacc' hpr (fun rv' h' => hiter rv' (by simp [h']))]
      rw [List.getLast?_cons_cons]
      cases hg : (rv2 :: rest2).getLast? with
      | none =>
        exfalso
        revert hg
        cases rest2 <;> simp [List.getLast?]
      | some l => rfl

/-- The comment-preparation loop never POSTs a review. -/
lemma countPost_prepComment (w : World) (o r : String) (p : Int) (c : Json) :
    countPost (prepComment w o r p c).2.2 = 0 := by
  unfold prepComment
  split
  · rfl
  next fj heq =>
    rcases hf : find_file_path_in_pr w o r p fj with ⟨res, effs⟩
    have heffs : effs = [Eff.getFiles] := by
      have h2 := congrArg Prod.snd hf
      exact h2.symm.trans rfl
    subst heffs
    cases res with
    | error e => rfl
    | ok path =>
      cases h3 : pyGetItem c "end_line" with
      | error e => rfl
      | ok ev =>
        cases h4 : pyGetItem c "body" with
        | error e => rfl
        | ok bv => rfl

lemma countPost_prepFold (w : World) (o r : String) (p : Int) (cs : List Json) :
    ∀ init : List FormattedComment × Bool × List Eff,
      countPost (cs.foldl (prepFoldStep w o r p) init).2.2 = countPost init.2.2 := by
  induction cs with
  | nil => intro init; rfl
  | cons c rest ih =>
    intro init
    rw [List.foldl_cons, ih _]
    have he : countPost (prepComment w o r p c).2.2 = 0 := countPost_prepComment w o r p c
    unfold prepFoldStep
    rcases hc : prepComment w o r p c with ⟨fc, okc, e⟩
    rw [hc] at he
    cases fc with
    | some f =>
      show countPost (init.2.2 ++ e) = countPost init.2.2
      simp only [countPost, List.countP_append] at he ⊢
      rw [he, Nat.add_zero]
    | none =>
      show countPost (init.2.2 ++ e) = countPost init.2.2
      simp only [countPost, List.countP_append] at he ⊢
      rw [he, Nat.add_zero]

/-- Each normally-returning posting call issues exactly one review POST. -/
lemma countPost_post_review (w : World) (o r : String) (p : Int) (rv : Json)
    (hpr : w.pr_status < 400) (hiter : ∃ cs, pyIter rv = Except.ok cs) :
    countPost (post_review_comments w o r p rv).2 = 1 := by
  obtain ⟨cs, hcs⟩ := hiter
  have hn : ¬(400 ≤ w.pr_status) := not_le.mpr hpr
  unfold post_review_comments get_pr_commit_sha
  simp only [hn, if_false, hcs]
  have hfold := countPost_prepFold w o r p cs ([], true, [])
  simp only [countPost, List.countP_append, List.countP_cons, List.countP_nil] at hfold ⊢
  rw [hfold]
  rfl

/-- The posting loop issues exactly one review POST per review. -/
lemma countPost_postAll (w : World) (o r : String) (p : Int) :
    ∀ (reviews : List Json) (acc : Except String Bool × List Eff),
      (∃ b, acc.1 = Except.ok b) →
      w.pr_status < 400 →
      (∀ rv ∈ reviews, ∃ cs, pyIter rv = Except.ok cs) →
      countPost (reviews.foldl (postStep w o r p) acc).2 =
        countPost acc.2 + reviews.length := by
  intro reviews
  induction reviews with
  | nil => intro acc hacc hpr hiter; simp
  | cons rv rest ih =>
    intro acc hacc hpr hiter
    rw [List.foldl_cons, postStep_ok w o r p acc rv hacc]
    have hok := post_review_comments_ok w o r p rv hpr (hiter rv (by simp))
    rw [ih ((post_review_comments w o r p rv).1,
      acc.2 ++ (post_review_comments w o r p rv).2) hok hpr
      (fun rv' h' => hiter rv' (by simp [h']))]
    have h1 := countPost_post_review w o r p rv hpr (hiter rv (by simp))
    simp only [countPost, List.countP_append] at h1 ⊢
    rw [h1]
    simp [Nat.add_comm, Nat.add_assoc, Nat.add_left_comm]

/-! ## Lemmas about the webhook handler -/

/-- On a well-formed PR payload whose action is not ignored, the handler
runs the main pipeline. -/
lemma github_webhook_main (w : World) (number inst : Int) (title : Option String)
    (ri : RepoInfo) (action : Option String)
    (hact : ∀ a, action = some a → a ≠ "closed" ∧ a ≠ "locked" ∧ a ≠ "unlocked") :
    github_webhook w ⟨some (some ⟨some number, title⟩), action, some ri, some inst⟩ =
      webhookMain w action ri.owner_login ri.name inst number := by
  cases action with
  | none => rfl
  | some a =>
    obtain ⟨h1, h2, h3⟩ := hact a rfl
    have e1 : (a == "closed") = false := beq_eq_false_iff_ne.mpr h1
    have e2 : (a == "locked") = false := beq_eq_false_iff_ne.mpr h2
    have e3 : (a == "unlocked") = false := beq_eq_false_iff_ne.mpr h3
    unfold github_webhook
    simp [e1, e2, e3]

/-- When the exchange and the file fetch succeed and the posting loop
returns normally, the response is the summary and its `success` field is
the posting loop's result. -/
lemma webhookMain_success (w : World) (action : Option String) (owner repo : String)
    (inst number : Int) (b : Bool)
    (htok : w.token_status < 400) (hfs : w.files_status = 200)
    (hpost : (postAllReviews w owner repo number (collectReviews w w.files).2.1).1 =
      Except.ok b) :
    (webhookMain w action owner repo inst number).1.successFlag = some b := by
  have hn : ¬(400 ≤ w.token_status) := not_le.mpr htok
  unfold webhookMain generate_jwt get_installation_token
  simp only [hn, if_false, hfs]
  simp [hpost, WebhookResult.successFlag]

/-- A line kept by the `meaningful_lines` comprehension is a `+`/`-`
content line. -/
lemma meaningful_line_implies (l : String) (h : meaningful_line l = true) :
    (pyStartsWith l "+" = true ∧ pyStartsWith l "+++" = false) ∨
    (pyStartsWith l "-" = true ∧ pyStartsWith l "---" = false) := by
  unfold meaningful_line at h
  simp only [Bool.and_eq_true, Bool.or_eq_true, Bool.not_eq_true'] at h
  obtain ⟨⟨⟨hor, hstrip⟩, hppp⟩, hmmm⟩ := h
  rcases hor with hp | hm
  · exact Or.inl ⟨hp, hppp⟩
  · exact Or.inr ⟨hm, hmmm⟩

/-! ## Claim C2 -/

/-- C2, as stated, is false of the code: there is no token cache at all.
With a fixed world (so the first token is still perfectly valid), calling
`get_installation_token` twice for the same installation id performs TWO
token exchanges — the second call does not return a cached token without a
new exchange, it always exchanges again. -/
theorem c2_counterexample :
    (get_installation_token wDemo "jwt" 7).1 = Except.ok "tok" ∧
    countExchange ((get_installation_token wDemo "jwt" 7).2 ++
      (get_installation_token wDemo "jwt" 7).2) = 2 :=
  ⟨rfl, rfl⟩

/-- C2 amended: `get_installation_token` performs exactly one token
exchange on EVERY call — no cache is consulted, so a repeated call for the
same installation id within any validity window triggers a new exchange. -/
theorem c2_every_call_exchanges (w : World) (jwt : String) (id : Int) :
    (get_installation_token w jwt id).2 = [Eff.tokenExchange id] := rfl

/-! ## Claim C5 -/

/-- C5: `parse_patch_changes` assigns new-file line numbers that strictly
increase within each hunk in the order the lines appear.  Conjunct 1
states strict increase of the chronological assignment trace on any
header-free run of lines; conjuncts 2 and 3 prove that trace records
exactly the numbers the parser stores (for the whole parse and from any
intermediate fold state), so conjunct 1 is a statement about the parser
itself.  Conjunct 4: a hunk header `@@ -a,b +c,d @@` (built from arbitrary
digit strings) seeds the counter to `c`.  Conjunct 5: a removed line does
not advance the counter. -/
theorem c5_line_numbers_strictly_increase :
    (∀ (lines : List String) (n : Nat),
      (∀ l ∈ lines, pyStartsWith l "@@" = false) →
      List.Chain' (· < ·) (recNums (hunkRecs lines n)))
    ∧ (∀ patch : String,
        (parse_patch_changes patch).added_lines.map Prod.fst =
          addNums (hunkRecs (pySplitLines patch) 0) ∧
        (parse_patch_changes patch).context_lines.map Prod.fst =
          ctxNums (hunkRecs (pySplitLines patch) 0))
    ∧ (∀ (lines : List String) (c : Changes) (n : Nat),
        (lines.foldl parseStep (c, n)).1.added_lines.map Prod.fst =
          c.added_lines.map Prod.fst ++ addNums (hunkRecs lines n) ∧
        (lines.foldl parseStep (c, n)).1.context_lines.map Prod.fst =
          c.context_lines.map Prod.fst ++ ctxNums (hunkRecs lines n))
    ∧ (∀ (c : Changes) (n : Nat) (s1 s2 s3 s4 : List Char),
        (∀ ch ∈ s1, ch.isDigit = true) → (∀ ch ∈ s2, ch.isDigit = true) →
        (∀ ch ∈ s3, ch.isDigit = true) → (∀ ch ∈ s4, ch.isDigit = true) →
        s1 ≠ [] → s3 ≠ [] →
        parseStep (c, n) (mkHeader s1 s2 s3 s4) = (c, digitsToNat s3))
    ∧ (∀ (c : Changes) (n : Nat) (line : String),
        pyStartsWith line "@@" = false → pyStartsWith line "-" = true →
        (parseStep (c, n) line).2 = n) := by
  refine ⟨?_, ?_, ?_, ?_, ?_⟩
  · intro lines n h
    exact (hunkRecs_chain lines n h).1
  · intro patch
    have h := foldl_parseStep_agrees (pySplitLines patch) emptyChanges 0
    simpa [parse_patch_changes, emptyChanges] using h
  · intro lines c n
    exact foldl_parseStep_agrees lines c n
  · intro c n s1 s2 s3 s4 h1 h2 h3 h4 n1 n3
    exact parseStep_header_some c n _ _ (pyStartsWith_mkHeader s1 s2 s3 s4)
      (searchHunkHeader_mkHeader s1 s2 s3 s4 h1 h2 h3 h4 n1 n3)
  · intro c n line hat hminus
    have hplus : pyStartsWith line "+" = false :=
      pyStartsWith_minus_not_plus line hminus
    rw [parseStep_minus c n line hat (by simp [hplus]) hminus]

/-- Witness for C5 at concrete inputs: a header-free hunk body, the header
`@@ -1,2 +57,3 @@` seeding the counter to 57, and a removed line leaving
the counter at 9. -/
theorem c5_line_numbers_witness :
    List.Chain' (· < ·) (recNums (hunkRecs [" ctx", "+a", "-b", "+c"] 1)) ∧
    parseStep (emptyChanges, 0) (mkHeader ['1'] ['2'] ['5', '7'] ['3']) =
      (emptyChanges, digitsToNat ['5', '7']) ∧
    (parseStep (emptyChanges, 9) "-x").2 = 9 :=
  ⟨c5_line_numbers_strictly_increase.1 [" ctx", "+a", "-b", "+c"] 1 (by decide),
   c5_line_numbers_strictly_increase.2.2.2.1 emptyChanges 0 ['1'] ['2'] ['5', '7'] ['3']
     (by decide) (by decide) (by decide) (by decide) (by decide) (by decide),
   c5_line_numbers_strictly_increase.2.2.2.2 emptyChanges 9 "-x" (by decide) (by decide)⟩

/-! ## Claim C6 -/

/-- C6: the first half of the claim holds (a `-` line that is not `---` is
recorded as a removal: the `-x` line below yields `"x"`), but the second
half is false of the code: the `elif line.startswith('-')` branch has no
`---` guard (unlike the `+` branch, which does guard against `+++`), so
the metadata line `--- a/f.py` IS recorded as the removal `"-- a/f.py"`. -/
theorem c6_metadata_minus_line_recorded_as_removal :
    (parse_patch_changes "--- a/f.py\n+++ b/f.py\n@@ -1,1 +1,1 @@\n-x\n+y").removed_lines =
      ["-- a/f.py", "x"] := by rfl

/-! ## Claim C7 -/

/-- C7: a pull-request payload with action `"closed"`, `"locked"` or
`"unlocked"` makes the handler return the no-op message
`{"message": "Action <action> ignored"}` immediately: the trace is empty
(no outbound call of any kind) and the result is a plain message, not an
error. -/
theorem c7_ignored_actions_noop (w : World) (number inst : Int)
    (title : Option String) (ri : RepoInfo) (a : String)
    (ha : a = "closed" ∨ a = "locked" ∨ a = "unlocked") :
    github_webhook w ⟨some (some ⟨some number, title⟩), some a, some ri, some inst⟩ =
      (WebhookResult.msg ("Action " ++ a ++ " ignored"), []) := by
  rcases ha with rfl | rfl | rfl <;> rfl

/-- Witness for C7: the `"closed"` action on a concrete world and payload
yields exactly `{"message": "Action closed ignored"}` with no outbound
calls. -/
theorem c7_ignored_actions_witness :
    github_webhook wDemo ⟨some (some ⟨some 7, some "t"⟩), some "closed",
      some ⟨"repo", "owner"⟩, some 42⟩ =
      (WebhookResult.msg "Action closed ignored", []) := by
  rw [c7_ignored_actions_noop wDemo 7 42 (some "t") ⟨"repo", "owner"⟩ "closed"
    (Or.inl rfl)]
  rfl

/-! ## Claim C8 -/

/-- C8: an empty patch, or one none of whose lines is a `+`/`-` content
line (metadata such as `+++`/`---` does not count), is rejected by
`should_review_file` for every filename. -/
theorem c8_filter_rejects_empty_or_metadata (filename patch : String)
    (h : patch = "" ∨ ∀ l ∈ pySplitLines patch,
      ¬((pyStartsWith l "+" = true ∧ pyStartsWith l "+++" = false) ∨
        (pyStartsWith l "-" = true ∧ pyStartsWith l "---" = false))) :
    should_review_file filename patch = false := by
  rcases h with rfl | h
  · rfl
  · have hfil : (pySplitLines patch).filter meaningful_line = [] := by
      rw [List.filter_eq_nil]
      intro l hl hml
      exact h l hl (meaningful_line_implies l hml)
    unfold should_review_file
    rw [hfil]
    simp

/-- Witness for C8: a metadata-only patch (hunk header, context line, and
`+++`/`---` markers only) is rejected. -/
theorem c8_filter_witness :
    should_review_file "x.py" "--- a/x.py\n+++ b/x.py\n@@ -1,2 +1,2 @@\n ctx" = false :=
  c8_filter_rejects_empty_or_metadata "x.py" "--- a/x.py\n+++ b/x.py\n@@ -1,2 +1,2 @@\n ctx"
    (Or.inr (by decide))

/-! ## Claim C9 -/

/-- C9: `create_focused_prompt` returns one fixed string: the result is
identical for all filenames, statuses, parsed changes and languages — the
computed `change_summary` and `key_additions` are never interpolated. -/
theorem c9_prompt_is_constant (f1 s1 : String) (c1 : Changes) (l1 : String)
    (f2 s2 : String) (c2 : Changes) (l2 : String) :
    create_focused_prompt f1 s1 c1 l1 = create_focused_prompt f2 s2 c2 l2 := rfl

/-! ## Claim C1 -/

/-- C1, as stated, is false of the code: the posting call is made once per
file's review, not once per delivery.  In the concrete run below the
delivery produces two per-file reviews (so the claim's premise holds) and
the delivery's trace contains TWO review POSTs, not one atomic review for
the whole pull request. -/
theorem c1_counterexample :
    (collectReviews wDemo wDemo.files).2.1.length = 2 ∧
    countPost (github_webhook wDemo payloadDemo).2 = 2 :=
  ⟨rfl, rfl⟩

/-- C1 amended: `post_review_comments` is invoked once per per-file
review — the posting loop issues exactly as many review POSTs as there are
reviews in `all_reviews` (hence exactly once only when exactly one file
produced a review), and each single invocation issues exactly one batched
POST carrying all of that one review's findings. -/
theorem c1_one_post_per_review (w : World) (o r : String) (p : Int)
    (reviews : List Json) (hpr : w.pr_status < 400)
    (hiter : ∀ rv ∈ reviews, ∃ cs, pyIter rv = Except.ok cs) :
    countPost (postAllReviews w o r p reviews).2 = reviews.length ∧
    ∀ rv ∈ reviews, countPost (post_review_comments w o r p rv).2 = 1 := by
  constructor
  · have h := countPost_postAll w o r p reviews (Except.ok false, [])
      ⟨false, rfl⟩ hpr hiter
    simpa [postAllReviews, countPost] using h
  · intro rv hrv
    exact countPost_post_review w o r p rv hpr (hiter rv hrv)

/-- Witness for C1 amended: two reviews yield two POSTs; one posting call
yields one POST. -/
theorem c1_one_post_per_review_witness :
    countPost (postAllReviews wDemo "o" "r" 7 [Json.arr [], Json.arr []]).2 = 2 ∧
    countPost (post_review_comments wDemo "o" "r" 7 (Json.arr [])).2 = 1 := by
  have h := c1_one_post_per_review wDemo "o" "r" 7 [Json.arr [], Json.arr []]
    (by decide)
    (by
      intro rv hrv
      rcases List.mem_cons.mp hrv with rfl | hrv2
      · exact ⟨[], rfl⟩
      · rcases List.mem_cons.mp hrv2 with rfl | h3
        · exact ⟨[], rfl⟩
        · exact absurd h3 (List.not_mem_nil rv))
  exact ⟨h.1, h.2 (Json.arr []) (by simp)⟩

/-! ## Claim C3 -/

/-- C3, as stated, is false of the code: a finding whose file cannot be
resolved is NOT dropped and NOT recorded as a partial failure.  In the
concrete run below `missing.css` resolves to no changed file, yet the one
review POST contains both findings — the unresolved one with
`path = None` — and the call reports overall success `True`. -/
theorem c3_counterexample :
    post_review_comments wC3 "o" "r" 1 cmtsC3 =
      (Except.ok true,
       [Eff.getPR, Eff.getFiles, Eff.getFiles,
        Eff.postReview ⟨"sha0", "🤖 Automated AI Code Review Summary", "COMMENT",
          [⟨none, Json.num 2, Json.str "b1"⟩,
           ⟨some "src/app.py", Json.num 3, Json.str "b2"⟩]⟩]) := by rfl

/-- C3 amended: a finding whose filename resolves to no changed file is
kept: `prepComment` returns it as a formatted comment with `path = None`
and leaves the `success_all` contribution `True`, and posting a list
containing such a finding sends it inside the single review POST, the call
succeeding iff the POST is accepted — no partial failure is recorded for
the unresolved path.  (Findings are dropped, with `success_all = False`,
only on a missing `file`/`end_line`/`body` key or a raised exception.) -/
theorem c3_unresolved_finding_kept (w : World) (o r : String) (p : Int)
    (c : Json) (f : String) (e b : Json)
    (hfile : pyGetItem c "file" = Except.ok (Json.str f))
    (hfs : w.files_status < 400)
    (hmiss : w.files.find? (fun fp => pyEndsWith (fp.filename.getD "") f) = none)
    (hend : pyGetItem c "end_line" = Except.ok e)
    (hbody : pyGetItem c "body" = Except.ok b) :
    prepComment w o r p c = (some ⟨none, e, b⟩, true, [Eff.getFiles]) ∧
    (w.pr_status < 400 →
      post_review_comments w o r p (Json.arr [c]) =
        ((if w.post_status ⟨w.head_sha, "🤖 Automated AI Code Review Summary",
            "COMMENT", [⟨none, e, b⟩]⟩ = 201
          then Except.ok true else Except.ok false),
         [Eff.getPR, Eff.getFiles,
          Eff.postReview ⟨w.head_sha, "🤖 Automated AI Code Review Summary",
            "COMMENT", [⟨none, e, b⟩]⟩])) := by
  have hff : find_file_path_in_pr w o r p (Json.str f) =
      (Except.ok none, [Eff.getFiles]) := by
    unfold find_file_path_in_pr
    have hn : ¬(400 ≤ w.files_status) := not_le.mpr hfs
    simp [hn, hmiss]
  have hprep : prepComment w o r p c = (some ⟨none, e, b⟩, true, [Eff.getFiles]) := by
    unfold prepComment
    simp [hfile, hff, hend, hbody]
  refine ⟨hprep, fun hpr => ?_⟩
  have hn : ¬(400 ≤ w.pr_status) := not_le.mpr hpr
  unfold post_review_comments get_pr_commit_sha
  simp only [hn, if_false]
  simp only [pyIter, List.foldl_cons, List.foldl_nil]
  unfold prepFoldStep
  rw [hprep]
  simp

/-- Witness for C3 amended: the finding for `missing.css` (absent from the
changed-file list of `wC3`) is kept with a null path and a `True` success
contribution. -/
theorem c3_unresolved_finding_witness :
    prepComment wC3 "o" "r" 1 (Json.obj [("file", Json.str "missing.css"),
      ("end_line", Json.num 2), ("body", Json.str "b1")]) =
      (some ⟨none, Json.num 2, Json.str "b1"⟩, true, [Eff.getFiles]) := by
  have h := c3_unresolved_finding_kept wC3 "o" "r" 1
    (Json.obj [("file", Json.str "missing.css"), ("end_line", Json.num 2),
      ("body", Json.str "b1")]) "missing.css" (Json.num 2) (Json.str "b1")
    rfl (by decide) rfl rfl rfl
  exact h.1

/-! ## Claim C4 -/

/-- C4, as stated, is false of the code: the per-file path checks only
that the content is valid JSON, not that it has the list-of-findings
shape.  With an LLM answering HTTP 200 and content `{}` — valid JSON, but
not a list of finding objects — the per-file review returns the decoded
object as-is: no synthetic error entry is produced, and the result is not
even a list. -/
theorem c4_counterexample :
    perFileReview wC4 "f.py" "@@ -1,1 +1,2 @@\n+x" "modified" =
      (Json.obj [], [Eff.llmPost "f.py"]) ∧
    (Json.obj []).isList = false :=
  ⟨rfl, rfl⟩

/-- C4 amended: when the LLM response has a non-200 status, or status 200
with content that is not parseable as JSON (after newline removal), the
per-file review path returns the synthetic one-element error review — a
non-empty list whose single entry's body carries the error text (conjunct
3 exhibits that shape); the path is a total function, so it never raises.
JSON content of any other shape is accepted as-is. -/
theorem c4_error_paths_synthetic :
    (∀ (w : World) (f patch st : String) (s : Nat) (content : Option String),
      w.llm f = LLMOutcome.resp s content → s ≠ 200 →
      ((parse_patch_changes patch).added_lines.isEmpty &&
        (parse_patch_changes patch).removed_lines.isEmpty) = false →
      (perFileReview w f patch st).1 = syntheticReview f)
    ∧ (∀ (w : World) (f patch st : String) (content : String),
      w.llm f = LLMOutcome.resp 200 (some content) →
      json_loads (pyReplace content "\n" "") = none →
      ((parse_patch_changes patch).added_lines.isEmpty &&
        (parse_patch_changes patch).removed_lines.isEmpty) = false →
      (perFileReview w f patch st).1 = syntheticReview f)
    ∧ (∀ f : String, syntheticReview f =
        Json.arr [Json.obj [("body",
          Json.str ("Review error in `" ++ f ++ "`: " ++ json_decode_error_msg))]]) := by
  refine ⟨?_, ?_, fun f => rfl⟩
  · intro w f patch st s content hllm hs hch
    unfold perFileReview query_openrouter_focused
    simp only [hch, Bool.false_eq_true, if_false, hllm]
    rw [if_pos hs]
    rfl
  · intro w f patch st content hllm hpar hch
    unfold perFileReview query_openrouter_focused
    simp only [hch, Bool.false_eq_true, if_false, hllm]
    rw [if_neg (fun h => h rfl)]
    simp only [hpar]

/-- Witness for C4 amended: an HTTP-500 response and a 200 response with
non-JSON content both yield the synthetic one-element error review. -/
theorem c4_error_paths_witness :
    (perFileReview w500 "f.py" "@@ -1,1 +1,2 @@\n+x" "modified").1 =
      syntheticReview "f.py" ∧
    (perFileReview wBadJson "f.py" "@@ -1,1 +1,2 @@\n+x" "modified").1 =
      syntheticReview "f.py" :=
  ⟨c4_error_paths_synthetic.1 w500 "f.py" "@@ -1,1 +1,2 @@\n+x" "modified" 500 none
      rfl (by decide) (by rfl),
   c4_error_paths_synthetic.2.1 wBadJson "f.py" "@@ -1,1 +1,2 @@\n+x" "modified"
      "not json" rfl (by rfl) (by rfl)⟩

/-! ## Claim C10 -/

/-- C10: when several files yield reviews, the `success` field of the
webhook response equals the posting result of the LAST review only — each
loop iteration overwrites `success`, so earlier posting failures do not
affect the reported flag. -/
theorem c10_success_equals_last_post (w : World) (number inst : Int)
    (title : Option String) (ri : RepoInfo) (action : Option String)
    (hact : ∀ a, action = some a → a ≠ "closed" ∧ a ≠ "locked" ∧ a ≠ "unlocked")
    (htok : w.token_status < 400) (hfs : w.files_status = 200)
    (hpr : w.pr_status < 400)
    (hiter : ∀ rv ∈ (collectReviews w w.files).2.1, ∃ cs, pyIter rv = Except.ok cs)
    (h2 : 2 ≤ (collectReviews w w.files).2.1.length) :
    ∃ (last : Json) (b : Bool),
      (collectReviews w w.files).2.1.getLast? = some last ∧
      (post_review_comments w ri.owner_login ri.name number last).1 = Except.ok b ∧
      (github_webhook w ⟨some (some ⟨some number, title⟩), action, some ri,
        some inst⟩).1.successFlag = some b := by
  have hne : (collectReviews w w.files).2.1 ≠ [] := by
    intro hnil
    rw [hnil] at h2
    simp at h2
  obtain ⟨last, hlast⟩ : ∃ last, (collectReviews w w.files).2.1.getLast? = some last := by
    cases hl : (collectReviews w w.files).2.1.getLast? with
    | none => exact absurd (List.getLast?_eq_none.mp hl) hne
    | some l => exact ⟨l, rfl⟩
  have hmem : last ∈ (collectReviews w w.files).2.1 := by
    obtain ⟨hne', heq⟩ := List.mem_getLast?_eq_getLast (x := last) hlast
    rw [heq]
    exact List.getLast_mem hne'
  obtain ⟨b, hb⟩ := post_review_comments_ok w ri.owner_login ri.name number last hpr
    (hiter last hmem)
  refine ⟨last, b, hlast, hb, ?_⟩
  rw [github_webhook_main w number inst title ri action hact]
  apply webhookMain_success w action ri.owner_login ri.name inst number b htok hfs
  have hfold := foldl_postStep_result w ri.owner_login ri.name number
    (collectReviews w w.files).2.1 (Except.ok false, []) ⟨false, rfl⟩ hpr hiter
  rw [hlast] at hfold
  unfold postAllReviews
  exact hfold.trans hb

/-- Witness for C10: in the `wC10` run, the first file's review fails to
post (HTTP 400) and the second (last) posts successfully; the reported
success flag equals the last result. -/
theorem c10_success_equals_last_post_witness :
    ∃ (last : Json) (b : Bool),
      (collectReviews wC10 wC10.files).2.1.getLast? = some last ∧
      (post_review_comments wC10 "o" "r" 5 last).1 = Except.ok b ∧
      (github_webhook wC10 payloadC10).1.successFlag = some b := by
  have h := c10_success_equals_last_post wC10 5 3 none ⟨"r", "o"⟩ (some "opened")
    (by intro a ha; cases ha; exact ⟨by decide, by decide, by decide⟩)
    (by decide) (by decide) (by decide)
    (by
      intro rv hrv
      have hrev : (collectReviews wC10 wC10.files).2.1 =
          [Json.arr [Json.obj [("file", Json.str "a.py"), ("end_line", Json.num 1),
            ("body", Json.str "x")]], Json.arr []] := rfl
      rw [hrev] at hrv
      rcases List.mem_cons.mp hrv with rfl | hrv2
      · exact ⟨_, rfl⟩
      · rcases List.mem_cons.mp hrv2 with rfl | h3
        · exact ⟨_, rfl⟩
        · exact absurd h3 (List.not_mem_nil rv))
    (by rw [show (collectReviews wC10 wC10.files).2.1.length = 2 from rfl])
  exact h

end CodeReview
